import Mathlib

/-!
# ARFM (src/script.js): rays on a map, pairwise intersections, fitted ellipse

A shallow embedding of `src/script.js`.

* The functions of the script are written once, over any type `F` of numbers that has
  the arithmetic operations, the comparison and the literals the script uses.  Two
  readings are used:
  - exact arithmetic: `F` is a linearly ordered field (`ℚ` for evaluation, `ℝ` for the
    trigonometric part);
  - JavaScript numbers: `F` is `Double`, the finite IEEE-754 binary64 values, where
    every operation is the exact operation followed by `roundDouble` (round to nearest,
    ties to even, with gradual underflow).  Overflow to `Infinity`, `NaN` and the sign
    of zero are not modelled.
* The `Math` object of the JavaScript runtime is a record `MathPrims F`; its functions
  are implementation-approximated in JavaScript, so only their exact reading is used:
  `MathLaws` states what an exact reading satisfies and `realMath` is one over `ℝ`.
  A value that fails `parseFloat` is `none`.
* `map.distance` (the map widget's distance primitive) is a parameter `distance`.
* Layer objects (polylines, markers, ellipses) carry an `id` standing for their
  JavaScript object identity; `!==` and `Array.prototype.includes` compare ids.
  The mutable `options.color` of a polyline lives in the table `State.color`.
-/

namespace ARFM

/-! ## Data -/

/-- A Leaflet `LatLng`: the fields `lat` and `lng`. -/
structure LatLng (K : Type) where
  lat : K
  lng : K
deriving DecidableEq, Repr

/-- What `getLatLngs()` returns for a two-point polyline: `[start, end]`. -/
abbrev Segment (K : Type) := LatLng K × LatLng K

/-- The functions and constants of the JavaScript `Math` object that the script uses. -/
structure MathPrims (K : Type) where
  PI : K
  sin : K → K
  cos : K → K
  asin : K → K
  /-- Argument order as in JavaScript: `atan2 y x`. -/
  atan2 : K → K → K

/-- The exact reading of `Math` over the real numbers.  `Math.atan2(y, x)` is the
argument of the complex number `x + y i`; it lies in `(-π, π]` and is `0` at the
origin (JavaScript, which has a signed zero, also returns `-π`). -/
noncomputable def realMath : MathPrims ℝ where
  PI := Real.pi
  sin := Real.sin
  cos := Real.cos
  asin := Real.arcsin
  atan2 := fun y x => Complex.arg ⟨x, y⟩

/-! ## JavaScript numbers -/

/-- The position of the leading binary digit of `n` (`0` for `n < 2`), by halving at
most `fuel` times. -/
def log2Fuel : Nat → Nat → Nat
  | 0, _ => 0
  | fuel + 1, n => if 2 ≤ n then log2Fuel fuel (n / 2) + 1 else 0

/-- IEEE-754 binary64 rounding of a rational number, to nearest with ties to even:
the result is `± r * 2 ^ e` where `e` is the exponent of the last of the 53 significant
binary digits of `q` (not below `-1074`, the exponent of the subnormal numbers) and `r`
is `|q| / 2 ^ e` rounded to an integer.  Overflow is not modelled. -/
def roundDouble (q : ℚ) : ℚ :=
  let n := q.num.natAbs
  let d := q.den
  if n = 0 then 0
  else
    let l : Int := (log2Fuel n n : Int) - (log2Fuel d d : Int)
    let lg : Int := if d * 2 ^ l.toNat ≤ n * 2 ^ (-l).toNat then l else l - 1
    let e : Int := max (lg - 52) (-1074)
    let N := n * 2 ^ (-e).toNat
    let D := d * 2 ^ e.toNat
    let quo := N / D
    let rem := N % D
    let r :=
      if 2 * rem < D then quo
      else if D < 2 * rem then quo + 1
      else if quo % 2 = 0 then quo else quo + 1
    (if q < 0 then -1 else 1) * (r : ℚ) * (2 : ℚ) ^ e

/-- A JavaScript number, given by its rational value. -/
structure Double where
  val : ℚ
deriving DecidableEq, Repr

/-- The operator `+` of JavaScript numbers. -/
instance : Add Double := ⟨fun a b => ⟨roundDouble (a.val + b.val)⟩⟩

/-- The operator `-` of JavaScript numbers. -/
instance : Sub Double := ⟨fun a b => ⟨roundDouble (a.val - b.val)⟩⟩

/-- The operator `*` of JavaScript numbers. -/
instance : Mul Double := ⟨fun a b => ⟨roundDouble (a.val * b.val)⟩⟩

/-- The operator `/` of JavaScript numbers. -/
instance : Div Double := ⟨fun a b => ⟨roundDouble (a.val / b.val)⟩⟩

/-- The sign change of a JavaScript number (exact). -/
instance : Neg Double := ⟨fun a => ⟨-a.val⟩⟩

/-- The operator `<` of JavaScript numbers. -/
instance : LT Double := ⟨fun a b => a.val < b.val⟩

/-- The comparison `<` can be evaluated. -/
instance (a b : Double) : Decidable (a < b) := inferInstanceAs (Decidable (a.val < b.val))

/-- An integer literal of the script. -/
instance (n : Nat) : OfNat Double n := ⟨⟨roundDouble n⟩⟩

/-- An integer (an array length) as a JavaScript number. -/
instance : NatCast Double := ⟨fun n => ⟨roundDouble n⟩⟩

/-- A decimal literal of the script, such as `0.6`. -/
instance : OfScientific Double :=
  ⟨fun mantissa exponentSign decimalExponent =>
    ⟨roundDouble (OfScientific.ofScientific mantissa exponentSign decimalExponent)⟩⟩

section Geometry

variable {F : Type} [Add F] [Sub F] [Mul F] [Div F] [LT F] [DecidableEq F]
  [∀ a b : F, Decidable (a < b)] [OfNat F 0] [OfNat F 1] [OfNat F 180] [OfNat F 6371000]

/-- `toRadians` (script.js 16-18). -/
def toRadians (M : MathPrims F) (degrees : F) : F :=
  degrees * M.PI / 180

/-- `calculateDestinationPoint` (script.js 21-34); returns `[lat, lon]` in degrees. -/
def calculateDestinationPoint (M : MathPrims F) (lat lon bearing distance : F) : F × F :=
  let R : F := 6371000
  let φ1 := toRadians M lat
  let lam1 := toRadians M lon
  let θ := toRadians M bearing
  let δ := distance / R
  let φ2 := M.asin (M.sin φ1 * M.cos δ + M.cos φ1 * M.sin δ * M.cos θ)
  let lam2 := lam1 + M.atan2 (M.sin θ * M.sin δ * M.cos φ1) (M.cos δ - M.sin φ1 * M.sin φ2)
  (φ2 * 180 / M.PI, lam2 * 180 / M.PI)

/-- `lineIntersection` (script.js 56-74); `null` is `none`, `L.latLng(y, x)` is `⟨y, x⟩`. -/
def lineIntersection (line1 line2 : Segment F) : Option (LatLng F) :=
  let x1 := line1.1.lng
  let y1 := line1.1.lat
  let x2 := line1.2.lng
  let y2 := line1.2.lat
  let x3 := line2.1.lng
  let y3 := line2.1.lat
  let x4 := line2.2.lng
  let y4 := line2.2.lat
  let denom := (y4 - y3) * (x2 - x1) - (x4 - x3) * (y2 - y1)
  if denom = 0 then none
  else
    let ua := ((x4 - x3) * (y1 - y3) - (y4 - y3) * (x1 - x3)) / denom
    let ub := ((x2 - x1) * (y1 - y3) - (y2 - y1) * (x1 - x3)) / denom
    if ua < 0 ∨ ua > 1 ∨ ub < 0 ∨ ub > 1 then none
    else
      let x := x1 + ua * (x2 - x1)
      let y := y1 + ua * (y2 - y1)
      some ⟨y, x⟩

end Geometry

/-! ## The page state and the event handlers -/

/-- The colours the script gives to layers. -/
inductive Color where
  | red
  | blue
  | yellow
deriving DecidableEq, Repr

/-- An `L.polyline` object: its identity and its two points; its colour is mutable and
is kept in `State.color`. -/
structure Polyline (K : Type) where
  id : Nat
  latlngs : Segment K
deriving DecidableEq, Repr

/-- An `L.marker` object created by `addIntersectionMarker` (the popup text is not
modelled). -/
structure Marker (K : Type) where
  id : Nat
  latlng : LatLng K
deriving DecidableEq, Repr

/-- An `L.ellipse(latlng, radii, tilt, options)` object. -/
structure Ellipse (K : Type) where
  id : Nat
  latlng : LatLng K
  radii : K × K
  tilt : K
  color : Color
deriving DecidableEq, Repr

/-- A layer that has been added to the map (the tile layer is not modelled). -/
inductive Layer (K : Type) where
  | polyline (line : Polyline K)
  | marker (m : Marker K)
  | ellipse (e : Ellipse K)
deriving DecidableEq, Repr

/-- The identity of a layer object. -/
def Layer.id {K : Type} : Layer K → Nat
  | .polyline line => line.id
  | .marker m => m.id
  | .ellipse e => e.id

/-- The module-level variables of script.js (lines 2-13) together with the layers on
the map; `nextId` is the identity the next created layer object receives. -/
structure State (K : Type) where
  nextId : Nat
  map : List (Layer K)
  /-- The field `options.color` of the polyline with the given identity. -/
  color : Nat → Color
  rays : List (Polyline K)
  selectedRays : List (Polyline K)
  intersectionMarkers : List (Marker K)
  ellipseLayer : Option (Ellipse K)

/-- What a handler shows or records besides changing the state: `alert` messages,
`console.log` messages, and the index pairs `(i, j)` for which `lineIntersection` was
called, in call order. -/
structure Output where
  alerts : List String
  console : List String
  attempts : List (Nat × Nat)
deriving DecidableEq, Repr

/-- No message and no call. -/
def Output.silent : Output := ⟨[], [], []⟩

section Handlers

variable {F : Type} [Add F] [Sub F] [Mul F] [Div F] [LT F] [DecidableEq F]
  [∀ a b : F, Decidable (a < b)] [OfNat F 0] [OfNat F 1] [OfNat F 180] [OfNat F 6371000]
  [NatCast F] [OfScientific F]

/-- The state after the top-level statements of script.js have run (lines 9-13). -/
def initialState : State F where
  nextId := 0
  map := []
  color := fun _ => Color.red
  rays := []
  selectedRays := []
  intersectionMarkers := []
  ellipseLayer := none

/-- `map.removeLayer(layer)`: the layer with that identity leaves the map. -/
def removeLayer (layers : List (Layer F)) (id : Nat) : List (Layer F) :=
  layers.filter (fun l => l.id ≠ id)

/-- `drawRay` (script.js 37-53): the new polyline is red (`polylineOptions`), is added
to the map and pushed onto `rays`. -/
def drawRay (M : MathPrims F) (s : State F) (lat lon bearing distance : F) : State F :=
  let dest := calculateDestinationPoint M lat lon bearing distance
  let line : Polyline F := ⟨s.nextId, (⟨lat, lon⟩, ⟨dest.1, dest.2⟩)⟩
  { s with
    nextId := s.nextId + 1
    map := s.map ++ [Layer.polyline line]
    color := Function.update s.color line.id Color.red
    rays := s.rays ++ [line] }

/-- The click handler that `drawRay` installs on `line` (script.js 42-50). -/
def lineClick (s : State F) (line : Polyline F) : State F :=
  if s.color line.id = Color.red then
    { s with
      color := Function.update s.color line.id Color.blue
      selectedRays := s.selectedRays ++ [line] }
  else
    { s with
      color := Function.update s.color line.id Color.red
      selectedRays := s.selectedRays.filter (fun ray => ray.id ≠ line.id) }

/-- `addIntersectionMarker` (script.js 77-81). -/
def addIntersectionMarker (s : State F) (point : LatLng F) : State F :=
  let marker : Marker F := ⟨s.nextId, point⟩
  { s with
    nextId := s.nextId + 1
    map := s.map ++ [Layer.marker marker]
    intersectionMarkers := s.intersectionMarkers ++ [marker] }

/-- `drawEllipse` (script.js 150-170); `distance` is `map.distance`. -/
def drawEllipse (distance : LatLng F → LatLng F → F) (s : State F)
    (points : List (LatLng F)) : State F :=
  let map1 :=
    match s.ellipseLayer with
    | some old => removeLayer s.map old.id
    | none => s.map
  let centroidLat := points.foldl (fun sum p => sum + p.lat) 0 / (points.length : F)
  let centroidLng := points.foldl (fun sum p => sum + p.lng) 0 / (points.length : F)
  let semiMajorAxis :=
    points.foldl (fun sum p => sum + distance ⟨centroidLat, centroidLng⟩ ⟨p.lat, p.lng⟩) 0 /
      (points.length : F)
  let semiMinorAxis := semiMajorAxis * 0.6
  let e : Ellipse F :=
    ⟨s.nextId, ⟨centroidLat, centroidLng⟩, (semiMajorAxis, semiMinorAxis), 0, Color.yellow⟩
  { s with
    nextId := s.nextId + 1
    map := map1 ++ [Layer.ellipse e]
    ellipseLayer := some e }

/-- One pass of the body of the inner loop (script.js 136-137) for the indices `i`, `j`:
the call is recorded and a non-null result is pushed.  Both indices are below
`rays.length` inside the loops, so the last case is never taken there. -/
def pairStep (rays : List (Polyline F)) (i : Nat)
    (acc : List (LatLng F) × List (Nat × Nat)) (j : Nat) : List (LatLng F) × List (Nat × Nat) :=
  match rays[i]?, rays[j]? with
  | some a, some b =>
    match lineIntersection a.latlngs b.latlngs with
    | some intersection => (acc.1 ++ [intersection], acc.2 ++ [(i, j)])
    | none => (acc.1, acc.2 ++ [(i, j)])
  | _, _ => acc

/-- The two nested `for` loops of script.js 132-139: `i` runs over `0 .. length-1`,
`j` over `i+1 .. length-1`.  The result is the array `intersections` and the list of
index pairs for which `lineIntersection` was called. -/
def collectIntersections (rays : List (Polyline F)) : List (LatLng F) × List (Nat × Nat) :=
  (List.range rays.length).foldl
    (fun acc i => (List.range' (i + 1) (rays.length - (i + 1))).foldl (pairStep rays i) acc)
    ([], [])

/-- The click handler of the button `calculateIntersection` (script.js 122-147). -/
def calculateIntersectionClick (distance : LatLng F → LatLng F → F) (s : State F) :
    State F × Output :=
  if s.rays.length < 3 then
    (s, { Output.silent with alerts := ["Please add at least three rays."] })
  else
    let s1 : State F :=
      { s with
        map := s.intersectionMarkers.foldl (fun layers marker => removeLayer layers marker.id) s.map
        intersectionMarkers := [] }
    let found := collectIntersections s1.rays
    if found.1.length = 0 then
      (s1, { Output.silent with console := ["No intersections found."], attempts := found.2 })
    else
      let s2 := found.1.foldl addIntersectionMarker s1
      (drawEllipse distance s2 found.1, { Output.silent with attempts := found.2 })

/-- The click handler of the button `removeSelectedRays` (script.js 173-177). -/
def removeSelectedRaysClick (s : State F) : State F :=
  { s with
    map := s.selectedRays.foldl (fun layers ray => removeLayer layers ray.id) s.map
    rays := s.rays.filter (fun ray => ¬ s.selectedRays.any (fun sel => sel.id = ray.id))
    selectedRays := [] }

/-- The click handler of the button `addRay` (script.js 108-119); an input that
`parseFloat` turns into `NaN` is `none`. -/
def addRayClick (M : MathPrims F) (s : State F) (lat lon azimuth distance : Option F) :
    State F × Output :=
  match lat, lon, azimuth, distance with
  | some lat, some lon, some azimuth, some distance =>
    (drawRay M s lat lon azimuth distance, Output.silent)
  | _, _, _, _ =>
    (s, { Output.silent with alerts := ["Please enter valid numbers for all fields."] })

/-- The `reader.onload` callback of `processExcel` (script.js 86-103) on the rows of
the first sheet; each row gives the four parsed cells. -/
def processExcel (M : MathPrims F) (s : State F)
    (rows : List (Option F × Option F × Option F × Option F)) : State F :=
  rows.foldl
    (fun s row =>
      match row with
      | (some lat, some lon, some azimuth, some distance) => drawRay M s lat lon azimuth distance
      | _ => s)
    s

end Handlers

section Scenarios

variable {K : Type} [LinearOrderedField K]

/-- The four corners `c ± a` in latitude, `c ± b` in longitude. -/
def squareAround (c : LatLng K) (a b : K) : List (LatLng K) :=
  [⟨c.lat + a, c.lng + b⟩, ⟨c.lat + a, c.lng - b⟩, ⟨c.lat - a, c.lng - b⟩, ⟨c.lat - a, c.lng + b⟩]

/-- The distance `|Δlat| + |Δlng|`, used to evaluate the ellipse fit on examples. -/
def taxicab (p q : LatLng K) : K :=
  |p.lat - q.lat| + |p.lng - q.lng|

/-- Two rays `0`, `1` that cross at `(1, 1)`, with the marker and the ellipse of an
earlier computation still displayed; a third ray `2` has since been selected and
removed. -/
def twoCrossingRays : State ℚ where
  nextId := 5
  map := [Layer.polyline ⟨0, (⟨0, 0⟩, ⟨2, 2⟩)⟩, Layer.polyline ⟨1, (⟨0, 2⟩, ⟨2, 0⟩)⟩,
    Layer.marker ⟨3, ⟨1, 1⟩⟩, Layer.ellipse ⟨4, ⟨1, 1⟩, (0, 0), 0, Color.yellow⟩]
  color := fun id => if id = 2 then Color.blue else Color.red
  rays := [⟨0, (⟨0, 0⟩, ⟨2, 2⟩)⟩, ⟨1, (⟨0, 2⟩, ⟨2, 0⟩)⟩]
  selectedRays := []
  intersectionMarkers := [⟨3, ⟨1, 1⟩⟩]
  ellipseLayer := some ⟨4, ⟨1, 1⟩, (0, 0), 0, Color.yellow⟩

/-- Three parallel rays `5`, `6`, `7` (no pair intersects), with one marker and the
ellipse of an earlier computation still displayed: the rays `0`, `1`, `2` that produced
them have since been selected and removed. -/
def threeParallelRays : State ℚ where
  nextId := 8
  map := [Layer.marker ⟨3, ⟨1, 1⟩⟩, Layer.ellipse ⟨4, ⟨1, 1⟩, (0, 0), 0, Color.yellow⟩,
    Layer.polyline ⟨5, (⟨0, 0⟩, ⟨10, 0⟩)⟩, Layer.polyline ⟨6, (⟨0, 1⟩, ⟨10, 1⟩)⟩,
    Layer.polyline ⟨7, (⟨0, 2⟩, ⟨10, 2⟩)⟩]
  color := fun id => if id < 3 then Color.blue else Color.red
  rays := [⟨5, (⟨0, 0⟩, ⟨10, 0⟩)⟩, ⟨6, (⟨0, 1⟩, ⟨10, 1⟩)⟩, ⟨7, (⟨0, 2⟩, ⟨10, 2⟩)⟩]
  selectedRays := []
  intersectionMarkers := [⟨3, ⟨1, 1⟩⟩]
  ellipseLayer := some ⟨4, ⟨1, 1⟩, (0, 0), 0, Color.yellow⟩

/-- Every selected ray is an active ray, and every polyline on the map is an active
ray. -/
def SelectionInv (s : State K) : Prop :=
  (∀ r ∈ s.selectedRays, r ∈ s.rays) ∧ (∀ l, Layer.polyline l ∈ s.map → l ∈ s.rays)

/-- The result of `lineIntersection(rays[i].getLatLngs(), rays[j].getLatLngs())` for an
index pair `(i, j)`. -/
def pairResult (rays : List (Polyline K)) (ij : Nat × Nat) : Option (LatLng K) :=
  match rays[ij.1]?, rays[ij.2]? with
  | some a, some b => lineIntersection a.latlngs b.latlngs
  | _, _ => none

/-- The index pairs `(i, j)` with `i` taken from `is` and `i < j < n`, in loop order. -/
def pairsFrom (n : Nat) (is : List Nat) : List (Nat × Nat) :=
  is.flatMap (fun i => (List.range' (i + 1) (n - (i + 1))).map (fun j => (i, j)))

/-- Four rays in a `#` pattern: two along the parallels `lat = 1`, `lat = 2` and two
along the meridians `lng = 1`, `lng = 2`; nothing has been computed yet. -/
def fourRays : State ℚ where
  nextId := 4
  map := [Layer.polyline ⟨0, (⟨1, 0⟩, ⟨1, 3⟩)⟩, Layer.polyline ⟨1, (⟨2, 0⟩, ⟨2, 3⟩)⟩,
    Layer.polyline ⟨2, (⟨0, 1⟩, ⟨3, 1⟩)⟩, Layer.polyline ⟨3, (⟨0, 2⟩, ⟨3, 2⟩)⟩]
  color := fun _ => Color.red
  rays := [⟨0, (⟨1, 0⟩, ⟨1, 3⟩)⟩, ⟨1, (⟨2, 0⟩, ⟨2, 3⟩)⟩, ⟨2, (⟨0, 1⟩, ⟨3, 1⟩)⟩,
    ⟨3, (⟨0, 2⟩, ⟨3, 2⟩)⟩]
  selectedRays := []
  intersectionMarkers := []
  ellipseLayer := none

/-- The states the page reaches from `initialState` by the user's actions: adding a ray
(button or spreadsheet import), clicking a line that is an active ray or is displayed
on the map, removing the selected rays, and requesting the intersections. -/
inductive Reachable (M : MathPrims K) (distance : LatLng K → LatLng K → K) : State K → Prop
  | init : Reachable M distance initialState
  | addRay (s : State K) (lat lon azimuth dist : Option K) :
      Reachable M distance s → Reachable M distance (addRayClick M s lat lon azimuth dist).1
  | importRays (s : State K) (rows : List (Option K × Option K × Option K × Option K)) :
      Reachable M distance s → Reachable M distance (processExcel M s rows)
  | toggleSelection (s : State K) (line : Polyline K) :
      Reachable M distance s → (line ∈ s.rays ∨ Layer.polyline line ∈ s.map) →
      Reachable M distance (lineClick s line)
  | removeSelected (s : State K) :
      Reachable M distance s → Reachable M distance (removeSelectedRaysClick s)
  | computeIntersections (s : State K) :
      Reachable M distance s → Reachable M distance (calculateIntersectionClick distance s).1

end Scenarios

section GeometryTheorems

variable {K : Type} [LinearOrderedField K]

/-- C1. `lineIntersection` returns a point exactly when the denominator
`(y4-y3)(x2-x1) - (x4-x3)(y2-y1)` is non-zero and both parameters `ua`, `ub` lie in
`[0,1]`; the returned point is then `P1 + ua (P2 - P1)` and also `P3 + ub (P4 - P3)`,
so it lies on both segments; in every other case the result is `none`. -/
theorem lineIntersection_iff_crossing (P1 P2 P3 P4 : LatLng K) :
    let denom := (P4.lat - P3.lat) * (P2.lng - P1.lng) - (P4.lng - P3.lng) * (P2.lat - P1.lat)
    let ua := ((P4.lng - P3.lng) * (P1.lat - P3.lat) - (P4.lat - P3.lat) * (P1.lng - P3.lng)) / denom
    let ub := ((P2.lng - P1.lng) * (P1.lat - P3.lat) - (P2.lat - P1.lat) * (P1.lng - P3.lng)) / denom
    let crossing := denom ≠ 0 ∧ (0 ≤ ua ∧ ua ≤ 1) ∧ (0 ≤ ub ∧ ub ≤ 1)
    ((∃ p, lineIntersection (P1, P2) (P3, P4) = some p) ↔ crossing) ∧
    (¬ crossing → lineIntersection (P1, P2) (P3, P4) = none) ∧
    (∀ p, lineIntersection (P1, P2) (P3, P4) = some p →
      (p.lng = P1.lng + ua * (P2.lng - P1.lng) ∧ p.lat = P1.lat + ua * (P2.lat - P1.lat)) ∧
      (p.lng = P3.lng + ub * (P4.lng - P3.lng) ∧ p.lat = P3.lat + ub * (P4.lat - P3.lat))) := by
  intro denom ua ub crossing
  have key : lineIntersection (P1, P2) (P3, P4) =
      if denom = 0 then none
      else if ua < 0 ∨ ua > 1 ∨ ub < 0 ∨ ub > 1 then none
      else some ⟨P1.lat + ua * (P2.lat - P1.lat), P1.lng + ua * (P2.lng - P1.lng)⟩ := rfl
  by_cases hd : denom = 0
  · have hnone : lineIntersection (P1, P2) (P3, P4) = none := by rw [key, if_pos hd]
    have hnc : ¬ crossing := fun h => h.1 hd
    refine ⟨?_, fun _ => hnone, ?_⟩
    · constructor
      · rintro ⟨p, hp⟩
        rw [hnone] at hp
        cases hp
      · intro h
        exact absurd h hnc
    · intro p hp
      rw [hnone] at hp
      cases hp
  · by_cases hout : ua < 0 ∨ ua > 1 ∨ ub < 0 ∨ ub > 1
    · have hnone : lineIntersection (P1, P2) (P3, P4) = none := by
        rw [key, if_neg hd, if_pos hout]
      have hnc : ¬ crossing := by
        rintro ⟨_, ⟨h1, h2⟩, h3, h4⟩
        rcases hout with h | h | h | h
        · exact absurd h1 (not_le.mpr h)
        · exact absurd h2 (not_le.mpr h)
        · exact absurd h3 (not_le.mpr h)
        · exact absurd h4 (not_le.mpr h)
      refine ⟨?_, fun _ => hnone, ?_⟩
      · constructor
        · rintro ⟨p, hp⟩
          rw [hnone] at hp
          cases hp
        · intro h
          exact absurd h hnc
      · intro p hp
        rw [hnone] at hp
        cases hp
    · have hsome : lineIntersection (P1, P2) (P3, P4) =
          some ⟨P1.lat + ua * (P2.lat - P1.lat), P1.lng + ua * (P2.lng - P1.lng)⟩ := by
        rw [key, if_neg hd, if_neg hout]
      have hc : crossing := by
        simp only [not_or, not_lt, gt_iff_lt] at hout
        exact ⟨hd, ⟨hout.1, hout.2.1⟩, hout.2.2.1, hout.2.2.2⟩
      refine ⟨⟨fun _ => hc, fun _ => ⟨_, hsome⟩⟩, fun h => absurd hc h, ?_⟩
      intro p hp
      rw [hsome] at hp
      cases hp
      refine ⟨⟨rfl, rfl⟩, ?_, ?_⟩
      · show P1.lng + ua * (P2.lng - P1.lng) = P3.lng + ub * (P4.lng - P3.lng)
        simp only [ua, ub]
        field_simp
        simp only [denom]
        ring
      · show P1.lat + ua * (P2.lat - P1.lat) = P3.lat + ub * (P4.lat - P3.lat)
        simp only [ua, ub]
        field_simp
        simp only [denom]
        ring

/-- In exact arithmetic `lineIntersection` is symmetric in its two segments: both orders
give `none`, or both give the same point. -/
theorem lineIntersection_symm_exact (A B : Segment K) :
    lineIntersection A B = lineIntersection B A := by
  obtain ⟨⟨y1, x1⟩, ⟨y2, x2⟩⟩ := A
  obtain ⟨⟨y3, x3⟩, ⟨y4, x4⟩⟩ := B
  simp only [lineIntersection]
  have hden : (y2 - y1) * (x4 - x3) - (x2 - x1) * (y4 - y3) =
      -((y4 - y3) * (x2 - x1) - (x4 - x3) * (y2 - y1)) := by ring
  by_cases hd : (y4 - y3) * (x2 - x1) - (x4 - x3) * (y2 - y1) = 0
  · have hd2 : (y2 - y1) * (x4 - x3) - (x2 - x1) * (y4 - y3) = 0 := by rw [hden, hd, neg_zero]
    rw [if_pos hd, if_pos hd2]
  · have hd2 : (y2 - y1) * (x4 - x3) - (x2 - x1) * (y4 - y3) ≠ 0 := by
      rw [hden]
      exact neg_ne_zero.mpr hd
    rw [if_neg hd, if_neg hd2]
    have hua : ((x2 - x1) * (y3 - y1) - (y2 - y1) * (x3 - x1)) /
          ((y2 - y1) * (x4 - x3) - (x2 - x1) * (y4 - y3)) =
        ((x2 - x1) * (y1 - y3) - (y2 - y1) * (x1 - x3)) /
          ((y4 - y3) * (x2 - x1) - (x4 - x3) * (y2 - y1)) := by
      rw [div_eq_div_iff hd2 hd]
      ring
    have hub : ((x4 - x3) * (y3 - y1) - (y4 - y3) * (x3 - x1)) /
          ((y2 - y1) * (x4 - x3) - (x2 - x1) * (y4 - y3)) =
        ((x4 - x3) * (y1 - y3) - (y4 - y3) * (x1 - x3)) /
          ((y4 - y3) * (x2 - x1) - (x4 - x3) * (y2 - y1)) := by
      rw [div_eq_div_iff hd2 hd]
      ring
    rw [hua, hub]
    by_cases hout : ((x4 - x3) * (y1 - y3) - (y4 - y3) * (x1 - x3)) /
          ((y4 - y3) * (x2 - x1) - (x4 - x3) * (y2 - y1)) < 0 ∨
        ((x4 - x3) * (y1 - y3) - (y4 - y3) * (x1 - x3)) /
          ((y4 - y3) * (x2 - x1) - (x4 - x3) * (y2 - y1)) > 1 ∨
        ((x2 - x1) * (y1 - y3) - (y2 - y1) * (x1 - x3)) /
          ((y4 - y3) * (x2 - x1) - (x4 - x3) * (y2 - y1)) < 0 ∨
        ((x2 - x1) * (y1 - y3) - (y2 - y1) * (x1 - x3)) /
          ((y4 - y3) * (x2 - x1) - (x4 - x3) * (y2 - y1)) > 1
    · have hout2 : ((x2 - x1) * (y1 - y3) - (y2 - y1) * (x1 - x3)) /
            ((y4 - y3) * (x2 - x1) - (x4 - x3) * (y2 - y1)) < 0 ∨
          ((x2 - x1) * (y1 - y3) - (y2 - y1) * (x1 - x3)) /
            ((y4 - y3) * (x2 - x1) - (x4 - x3) * (y2 - y1)) > 1 ∨
          ((x4 - x3) * (y1 - y3) - (y4 - y3) * (x1 - x3)) /
            ((y4 - y3) * (x2 - x1) - (x4 - x3) * (y2 - y1)) < 0 ∨
          ((x4 - x3) * (y1 - y3) - (y4 - y3) * (x1 - x3)) /
            ((y4 - y3) * (x2 - x1) - (x4 - x3) * (y2 - y1)) > 1 := by
        rcases hout with h | h | h | h
        · exact Or.inr (Or.inr (Or.inl h))
        · exact Or.inr (Or.inr (Or.inr h))
        · exact Or.inl h
        · exact Or.inr (Or.inl h)
      rw [if_pos hout, if_pos hout2]
    · have hout2 : ¬ (((x2 - x1) * (y1 - y3) - (y2 - y1) * (x1 - x3)) /
            ((y4 - y3) * (x2 - x1) - (x4 - x3) * (y2 - y1)) < 0 ∨
          ((x2 - x1) * (y1 - y3) - (y2 - y1) * (x1 - x3)) /
            ((y4 - y3) * (x2 - x1) - (x4 - x3) * (y2 - y1)) > 1 ∨
          ((x4 - x3) * (y1 - y3) - (y4 - y3) * (x1 - x3)) /
            ((y4 - y3) * (x2 - x1) - (x4 - x3) * (y2 - y1)) < 0 ∨
          ((x4 - x3) * (y1 - y3) - (y4 - y3) * (x1 - x3)) /
            ((y4 - y3) * (x2 - x1) - (x4 - x3) * (y2 - y1)) > 1) := by
        intro h
        apply hout
        rcases h with h | h | h | h
        · exact Or.inr (Or.inr (Or.inl h))
        · exact Or.inr (Or.inr (Or.inr h))
        · exact Or.inl h
        · exact Or.inr (Or.inl h)
      rw [if_neg hout, if_neg hout2]
      congr 2
      · field_simp
        ring
      · field_simp
        ring

end GeometryTheorems

section DoubleTheorems

/-- Zero is rounded to itself. -/
theorem roundDouble_zero : roundDouble 0 = 0 := by
  simp [roundDouble]

/-- Rounding commutes with the change of sign. -/
theorem roundDouble_neg (q : ℚ) : roundDouble (-q) = -roundDouble q := by
  by_cases hq : q = 0
  · subst hq
    simp [roundDouble_zero]
  · have hsign : (if -q < 0 then (-1 : ℚ) else 1) = -(if q < 0 then (-1 : ℚ) else 1) := by
      rcases lt_or_gt_of_ne hq with h | h
      · have h1 : ¬ (-q < 0) := by
          rw [neg_lt_zero]
          exact not_lt.mpr (le_of_lt h)
        rw [if_neg h1, if_pos h, neg_neg]
      · have h1 : -q < 0 := neg_lt_zero.mpr h
        have h2 : ¬ (q < 0) := not_lt.mpr (le_of_lt h)
        rw [if_pos h1, if_neg h2]
    simp only [roundDouble, Rat.neg_num, Int.natAbs_neg, Rat.neg_den, hsign]
    split
    · simp
    · ring

/-- Swapping the operands of `-` changes the sign of the result. -/
theorem Double.sub_antisymm (a b : Double) : a - b = -(b - a) := by
  show (⟨roundDouble (a.val - b.val)⟩ : Double) = ⟨-roundDouble (b.val - a.val)⟩
  rw [← roundDouble_neg, neg_sub]

/-- The operator `*` is commutative. -/
theorem Double.mul_symm (a b : Double) : a * b = b * a := by
  show (⟨roundDouble (a.val * b.val)⟩ : Double) = ⟨roundDouble (b.val * a.val)⟩
  rw [mul_comm]

/-- A sign change of the right factor changes the sign of the product. -/
theorem Double.mul_neg_right (a b : Double) : a * -b = -(a * b) := by
  show (⟨roundDouble (a.val * -b.val)⟩ : Double) = ⟨-roundDouble (a.val * b.val)⟩
  rw [← roundDouble_neg, mul_neg]

/-- A sign change of both operands changes the sign of the difference. -/
theorem Double.neg_sub_neg_eq (a b : Double) : -a - -b = -(a - b) := by
  show (⟨roundDouble (-a.val - -b.val)⟩ : Double) = ⟨-roundDouble (a.val - b.val)⟩
  rw [← roundDouble_neg]
  congr 2
  ring

/-- A sign change of both operands leaves the quotient unchanged. -/
theorem Double.div_neg_neg (a b : Double) : -a / -b = a / b := by
  show (⟨roundDouble (-a.val / -b.val)⟩ : Double) = ⟨roundDouble (a.val / b.val)⟩
  rw [neg_div_neg_eq]

/-- Only zero has the opposite zero. -/
theorem Double.neg_eq_zero_iff (a : Double) : -a = 0 ↔ a = 0 := by
  show (⟨-a.val⟩ : Double) = ⟨roundDouble ((0 : ℕ) : ℚ)⟩ ↔ a = ⟨roundDouble ((0 : ℕ) : ℚ)⟩
  cases a
  simp [roundDouble_zero]

/-- In an arithmetic whose `-`, `*` and `/` respect the change of sign (as rounding to
nearest does), `lineIntersection` returns a point for `(C, D)` exactly when it returns
one for `(D, C)`: the denominators are opposite and `ua`, `ub` are exchanged. -/
theorem lineIntersection_isSome_of_sign_laws {F : Type} [Add F] [Sub F] [Mul F] [Div F] [LT F]
    [DecidableEq F] [∀ a b : F, Decidable (a < b)] [OfNat F 0] [OfNat F 1] [Neg F]
    (hsub : ∀ a b : F, a - b = -(b - a)) (hmul : ∀ a b : F, a * b = b * a)
    (hmulneg : ∀ a b : F, a * -b = -(a * b)) (hnegsub : ∀ a b : F, -a - -b = -(a - b))
    (hdiv : ∀ a b : F, -a / -b = a / b) (hzero : ∀ a : F, -a = 0 ↔ a = 0)
    (C D : Segment F) :
    (lineIntersection C D).isSome = (lineIntersection D C).isSome := by
  obtain ⟨⟨y1, x1⟩, ⟨y2, x2⟩⟩ := C
  obtain ⟨⟨y3, x3⟩, ⟨y4, x4⟩⟩ := D
  simp only [lineIntersection]
  have hden : (y2 - y1) * (x4 - x3) - (x2 - x1) * (y4 - y3) =
      -((y4 - y3) * (x2 - x1) - (x4 - x3) * (y2 - y1)) := by
    rw [hmul (y2 - y1), hmul (x2 - x1)]
    exact hsub _ _
  have hua : ((x2 - x1) * (y3 - y1) - (y2 - y1) * (x3 - x1)) /
        ((y2 - y1) * (x4 - x3) - (x2 - x1) * (y4 - y3)) =
      ((x2 - x1) * (y1 - y3) - (y2 - y1) * (x1 - x3)) /
        ((y4 - y3) * (x2 - x1) - (x4 - x3) * (y2 - y1)) := by
    rw [hden, hsub y3 y1, hsub x3 x1, hmulneg, hmulneg, hnegsub, hdiv]
  have hub : ((x4 - x3) * (y3 - y1) - (y4 - y3) * (x3 - x1)) /
        ((y2 - y1) * (x4 - x3) - (x2 - x1) * (y4 - y3)) =
      ((x4 - x3) * (y1 - y3) - (y4 - y3) * (x1 - x3)) /
        ((y4 - y3) * (x2 - x1) - (x4 - x3) * (y2 - y1)) := by
    rw [hden, hsub y3 y1, hsub x3 x1, hmulneg, hmulneg, hnegsub, hdiv]
  rw [hua, hub]
  by_cases hd : (y4 - y3) * (x2 - x1) - (x4 - x3) * (y2 - y1) = 0
  · have hd2 : (y2 - y1) * (x4 - x3) - (x2 - x1) * (y4 - y3) = 0 := by
      rw [hden]
      exact (hzero _).mpr hd
    rw [if_pos hd, if_pos hd2]
  · have hd2 : ¬ (y2 - y1) * (x4 - x3) - (x2 - x1) * (y4 - y3) = 0 := by
      rw [hden]
      exact fun h => hd ((hzero _).mp h)
    rw [if_neg hd, if_neg hd2]
    by_cases hout : ((x4 - x3) * (y1 - y3) - (y4 - y3) * (x1 - x3)) /
          ((y4 - y3) * (x2 - x1) - (x4 - x3) * (y2 - y1)) < 0 ∨
        ((x4 - x3) * (y1 - y3) - (y4 - y3) * (x1 - x3)) /
          ((y4 - y3) * (x2 - x1) - (x4 - x3) * (y2 - y1)) > 1 ∨
        ((x2 - x1) * (y1 - y3) - (y2 - y1) * (x1 - x3)) /
          ((y4 - y3) * (x2 - x1) - (x4 - x3) * (y2 - y1)) < 0 ∨
        ((x2 - x1) * (y1 - y3) - (y2 - y1) * (x1 - x3)) /
          ((y4 - y3) * (x2 - x1) - (x4 - x3) * (y2 - y1)) > 1
    · have hout2 : ((x2 - x1) * (y1 - y3) - (y2 - y1) * (x1 - x3)) /
            ((y4 - y3) * (x2 - x1) - (x4 - x3) * (y2 - y1)) < 0 ∨
          ((x2 - x1) * (y1 - y3) - (y2 - y1) * (x1 - x3)) /
            ((y4 - y3) * (x2 - x1) - (x4 - x3) * (y2 - y1)) > 1 ∨
          ((x4 - x3) * (y1 - y3) - (y4 - y3) * (x1 - x3)) /
            ((y4 - y3) * (x2 - x1) - (x4 - x3) * (y2 - y1)) < 0 ∨
          ((x4 - x3) * (y1 - y3) - (y4 - y3) * (x1 - x3)) /
            ((y4 - y3) * (x2 - x1) - (x4 - x3) * (y2 - y1)) > 1 := by
        rcases hout with h | h | h | h
        · exact Or.inr (Or.inr (Or.inl h))
        · exact Or.inr (Or.inr (Or.inr h))
        · exact Or.inl h
        · exact Or.inr (Or.inl h)
      rw [if_pos hout, if_pos hout2]
    · have hout2 : ¬ (((x2 - x1) * (y1 - y3) - (y2 - y1) * (x1 - x3)) /
            ((y4 - y3) * (x2 - x1) - (x4 - x3) * (y2 - y1)) < 0 ∨
          ((x2 - x1) * (y1 - y3) - (y2 - y1) * (x1 - x3)) /
            ((y4 - y3) * (x2 - x1) - (x4 - x3) * (y2 - y1)) > 1 ∨
          ((x4 - x3) * (y1 - y3) - (y4 - y3) * (x1 - x3)) /
            ((y4 - y3) * (x2 - x1) - (x4 - x3) * (y2 - y1)) < 0 ∨
          ((x4 - x3) * (y1 - y3) - (y4 - y3) * (x1 - x3)) /
            ((y4 - y3) * (x2 - x1) - (x4 - x3) * (y2 - y1)) > 1) := by
        intro h
        apply hout
        rcases h with h | h | h | h
        · exact Or.inr (Or.inr (Or.inl h))
        · exact Or.inr (Or.inr (Or.inr h))
        · exact Or.inl h
        · exact Or.inr (Or.inl h)
      rw [if_neg hout, if_neg hout2]
      rfl

/-- With JavaScript numbers `lineIntersection` returns a point for `(C, D)` exactly when
it returns one for `(D, C)`. -/
theorem lineIntersection_double_isSome (C D : Segment Double) :
    (lineIntersection C D).isSome = (lineIntersection D C).isSome :=
  lineIntersection_isSome_of_sign_laws Double.sub_antisymm Double.mul_symm Double.mul_neg_right
    Double.neg_sub_neg_eq Double.div_neg_neg Double.neg_eq_zero_iff C D

/-- C2 is false as stated: with JavaScript numbers the segments `A = ((0,0),(1,2))` and
`B = ((0,3),(1,0))` (as `(lat, lng)` pairs) give the longitude `1.2` for `(A, B)` and
`1.2000000000000002` for `(B, A)`. -/
theorem lineIntersection_double_not_symm :
    lineIntersection ((⟨0, 0⟩, ⟨1, 2⟩) : Segment Double) (⟨0, 3⟩, ⟨1, 0⟩) =
      some ⟨⟨5404319552844595 / 9007199254740992⟩, ⟨5404319552844595 / 4503599627370496⟩⟩ ∧
    lineIntersection ((⟨0, 3⟩, ⟨1, 0⟩) : Segment Double) (⟨0, 0⟩, ⟨1, 2⟩) =
      some ⟨⟨5404319552844595 / 9007199254740992⟩, ⟨1351079888211149 / 1125899906842624⟩⟩ ∧
    lineIntersection ((⟨0, 0⟩, ⟨1, 2⟩) : Segment Double) (⟨0, 3⟩, ⟨1, 0⟩) ≠
      lineIntersection ((⟨0, 3⟩, ⟨1, 0⟩) : Segment Double) (⟨0, 0⟩, ⟨1, 2⟩) := by
  decide!

/-- C2 (as amended). For any two segments, `lineIntersection(A, B)` is `none` exactly
when `lineIntersection(B, A)` is `none`, with JavaScript numbers as well as in exact
arithmetic; in exact arithmetic both orders return the same point. -/
theorem lineIntersection_symm :
    (∀ C D : Segment Double, (lineIntersection C D).isSome = (lineIntersection D C).isSome) ∧
    (∀ C D : Segment Double, lineIntersection C D = none ↔ lineIntersection D C = none) ∧
    (∀ (K : Type) [LinearOrderedField K] (A B : Segment K),
      lineIntersection A B = lineIntersection B A) := by
  refine ⟨lineIntersection_double_isSome, ?_, ?_⟩
  · intro C D
    have h := lineIntersection_double_isSome C D
    cases hC : lineIntersection C D <;> cases hD : lineIntersection D C <;>
      simp [hC, hD] at h ⊢
  · intro K _ A B
    exact lineIntersection_symm_exact A B

end DoubleTheorems

section EllipseTheorems

variable {K : Type} [LinearOrderedField K]

/-- The left fold that `reduce((sum, p) => sum + f(p), 0)` performs is the sum of the
values of `f`. -/
theorem foldl_add_eq_sum (f : LatLng K → K) (points : List (LatLng K)) (init : K) :
    points.foldl (fun sum p => sum + f p) init = init + (points.map f).sum := by
  induction points generalizing init with
  | nil => simp
  | cons p rest ih =>
    simp only [List.foldl_cons, List.map_cons, List.sum_cons]
    rw [ih]
    ring

/-- The value of `reduce((sum, p) => sum + f(p), 0)` does not depend on the order of
the array. -/
theorem foldl_add_perm (f : LatLng K → K) {points points' : List (LatLng K)}
    (h : points.Perm points') :
    points.foldl (fun sum p => sum + f p) 0 = points'.foldl (fun sum p => sum + f p) 0 := by
  rw [foldl_add_eq_sum, foldl_add_eq_sum, (h.map f).sum_eq]

/-- C3 (as amended). In exact arithmetic, for a non-empty array of points `drawEllipse`
stores an ellipse whose centre is the arithmetic mean of the latitudes and of the
longitudes, whose semi-major axis is the mean of `distance(centre, p)`, whose
semi-minor axis is the semi-major axis times `0.6` (so the ratio semi-minor /
semi-major is `0.6` whenever the semi-major axis is not zero) and whose tilt is `0`;
for the four corners of a square around `c`, in any order, the centre is `c`. -/
theorem drawEllipse_fit (distance : LatLng K → LatLng K → K) (s : State K)
    (points : List (LatLng K)) (_hne : points ≠ []) :
    ∃ e, (drawEllipse distance s points).ellipseLayer = some e ∧
      e.latlng.lat = (points.map (fun p => p.lat)).sum / (points.length : K) ∧
      e.latlng.lng = (points.map (fun p => p.lng)).sum / (points.length : K) ∧
      e.radii.1 = (points.map (fun p => distance e.latlng p)).sum / (points.length : K) ∧
      e.radii.2 = e.radii.1 * 0.6 ∧
      (e.radii.1 ≠ 0 → e.radii.2 / e.radii.1 = 0.6) ∧
      e.tilt = 0 ∧
      ∀ (c : LatLng K) (a b : K), points.Perm (squareAround c a b) → e.latlng = c := by
  refine ⟨_, rfl, ?_, ?_, ?_, rfl, ?_, rfl, ?_⟩
  · simp only [foldl_add_eq_sum, zero_add]
  · simp only [foldl_add_eq_sum, zero_add]
  · simp only [foldl_add_eq_sum, zero_add]
  · intro hmajor
    show (points.foldl (fun sum p => sum + distance _ ⟨p.lat, p.lng⟩) 0 / (points.length : K)) *
        0.6 /
      (points.foldl (fun sum p => sum + distance _ ⟨p.lat, p.lng⟩) 0 / (points.length : K)) = 0.6
    rw [mul_div_assoc, mul_comm, div_mul_cancel₀ _ hmajor]
  · intro c a b hperm
    have hlen : points.length = 4 := by rw [hperm.length_eq]; rfl
    have hlat : (points.map (fun p => p.lat)).sum = 4 * c.lat := by
      rw [(hperm.map _).sum_eq]
      simp only [squareAround, List.map_cons, List.map_nil, List.sum_cons, List.sum_nil]
      ring
    have hlng : (points.map (fun p => p.lng)).sum = 4 * c.lng := by
      rw [(hperm.map _).sum_eq]
      simp only [squareAround, List.map_cons, List.map_nil, List.sum_cons, List.sum_nil]
      ring
    show (⟨points.foldl (fun sum p => sum + p.lat) 0 / (points.length : K),
        points.foldl (fun sum p => sum + p.lng) 0 / (points.length : K)⟩ : LatLng K) = c
    simp only [foldl_add_eq_sum, zero_add, hlat, hlng, hlen]
    cases c
    simp only [LatLng.mk.injEq]
    constructor <;> · push_cast; field_simp

/-- C4 (as amended). In exact arithmetic `drawEllipse` does not depend on the order of
the points: for a permutation of a non-empty array it stores the same ellipse (same
centre, same semi-major axis, same semi-minor axis) and leaves the same state, for any
fixed `distance`. -/
theorem drawEllipse_perm (distance : LatLng K → LatLng K → K) (s : State K)
    (points points' : List (LatLng K)) (_hne : points ≠ []) (h : points.Perm points') :
    drawEllipse distance s points = drawEllipse distance s points' ∧
    ∃ e e', (drawEllipse distance s points).ellipseLayer = some e ∧
      (drawEllipse distance s points').ellipseLayer = some e' ∧
      e.latlng = e'.latlng ∧ e.radii.1 = e'.radii.1 ∧ e.radii.2 = e'.radii.2 := by
  have heq : drawEllipse distance s points = drawEllipse distance s points' := by
    simp only [drawEllipse]
    rw [foldl_add_perm (fun p => p.lat) h, foldl_add_perm (fun p => p.lng) h, h.length_eq]
    rw [foldl_add_perm (fun p => distance _ ⟨p.lat, p.lng⟩) h]
  refine ⟨heq, ?_⟩
  rw [← heq]
  exact ⟨_, _, rfl, rfl, rfl, rfl, rfl⟩

/-- The distance `taxicab` is positive between different points. -/
theorem taxicab_pos (p q : LatLng K) (h : p ≠ q) : 0 < taxicab p q := by
  unfold taxicab
  by_contra hle
  have h1 : |p.lat - q.lat| = 0 := by
    have := abs_nonneg (p.lat - q.lat)
    have := abs_nonneg (p.lng - q.lng)
    linarith
  have h2 : |p.lng - q.lng| = 0 := by
    have := abs_nonneg (p.lat - q.lat)
    have := abs_nonneg (p.lng - q.lng)
    linarith
  apply h
  cases p
  cases q
  simp only [LatLng.mk.injEq]
  exact ⟨sub_eq_zero.mp (abs_eq_zero.mp h1), sub_eq_zero.mp (abs_eq_zero.mp h2)⟩

/-- C3 (as amended) on the square with corners `(10 ± 1, 20 ± 2)` and the distance
`taxicab`: the centre is `(10, 20)`, the axes are `3` and `9/5`, the ratio is `0.6`. -/
theorem drawEllipse_fit_witness :
    squareAround (⟨10, 20⟩ : LatLng ℚ) 1 2 ≠ [] ∧
    ∃ e, (drawEllipse taxicab initialState (squareAround (⟨10, 20⟩ : LatLng ℚ) 1 2)).ellipseLayer
        = some e ∧
      e.latlng = ⟨10, 20⟩ ∧ e.radii.1 = 3 ∧ e.radii.2 = e.radii.1 * 0.6 ∧ e.tilt = 0 ∧
      e.radii.2 / e.radii.1 = 0.6 := by
  refine ⟨by simp [squareAround], ?_⟩
  obtain ⟨e, he, _, _, hmajor, hminor, hratio, htilt, hsq⟩ :=
    drawEllipse_fit taxicab initialState (squareAround (⟨10, 20⟩ : LatLng ℚ) 1 2)
      (by simp [squareAround])
  have hc := hsq ⟨10, 20⟩ 1 2 (List.Perm.refl _)
  have h3 : e.radii.1 = 3 := by
    rw [hmajor, hc]
    norm_num [squareAround, taxicab]
  refine ⟨e, he, hc, h3, hminor, htilt, hratio ?_⟩
  rw [h3]
  norm_num

/-- The order independence of C4 on two points given in both orders. -/
theorem drawEllipse_perm_witness :
    ([⟨0, 0⟩, ⟨4, 2⟩] : List (LatLng ℚ)) ≠ [] ∧
    List.Perm ([⟨0, 0⟩, ⟨4, 2⟩] : List (LatLng ℚ)) [⟨4, 2⟩, ⟨0, 0⟩] ∧
    drawEllipse taxicab initialState ([⟨0, 0⟩, ⟨4, 2⟩] : List (LatLng ℚ)) =
      drawEllipse taxicab initialState [⟨4, 2⟩, ⟨0, 0⟩] :=
  ⟨by simp, List.Perm.swap _ _ _,
    (drawEllipse_perm taxicab initialState _ _ (by simp) (List.Perm.swap _ _ _)).1⟩

end EllipseTheorems

section ProjectionTheorems

/-- The argument of a complex number, turned into degrees, is in `(-180, 180]`. -/
theorem arg_degrees_bounds (z : ℂ) :
    -180 < Complex.arg z * 180 / Real.pi ∧ Complex.arg z * 180 / Real.pi ≤ 180 := by
  have hpi := Real.pi_pos
  have h1 := Complex.neg_pi_lt_arg z
  have h2 := Complex.arg_le_pi z
  constructor
  · rw [lt_div_iff₀ hpi]
    nlinarith
  · rw [div_le_iff₀ hpi]
    nlinarith

/-- The destination of `calculateDestinationPoint` over the reals, component by
component. -/
theorem calculateDestinationPoint_real (lat lon bearing distance : ℝ) :
    ∃ (x : ℝ) (z : ℂ),
      (calculateDestinationPoint realMath lat lon bearing distance).1 =
        Real.arcsin x * 180 / Real.pi ∧
      (calculateDestinationPoint realMath lat lon bearing distance).2 =
        lon + Complex.arg z * 180 / Real.pi := by
  have hpi := Real.pi_ne_zero
  refine ⟨realMath.sin (toRadians realMath lat) * realMath.cos (distance / 6371000) +
      realMath.cos (toRadians realMath lat) * realMath.sin (distance / 6371000) *
        realMath.cos (toRadians realMath bearing),
    ⟨realMath.cos (distance / 6371000) - realMath.sin (toRadians realMath lat) *
        realMath.sin (realMath.asin
          (realMath.sin (toRadians realMath lat) * realMath.cos (distance / 6371000) +
            realMath.cos (toRadians realMath lat) * realMath.sin (distance / 6371000) *
              realMath.cos (toRadians realMath bearing))),
      realMath.sin (toRadians realMath bearing) * realMath.sin (distance / 6371000) *
        realMath.cos (toRadians realMath lat)⟩, rfl, ?_⟩
  simp only [calculateDestinationPoint, toRadians, realMath]
  field_simp

/-- C5 (as amended). For a valid origin and a distance `≥ 0`, the destination latitude
lies in `[-90, 90]`; the destination longitude lies within 180 degrees of the origin
longitude, hence in `(-360, 360]`: it is not wrapped into `[-180, 180]`. -/
theorem calculateDestinationPoint_bounds (lat lon bearing distance : ℝ)
    (_hlat : -90 ≤ lat ∧ lat ≤ 90) (hlon : -180 ≤ lon ∧ lon ≤ 180) (_hdist : 0 ≤ distance) :
    (-90 ≤ (calculateDestinationPoint realMath lat lon bearing distance).1 ∧
      (calculateDestinationPoint realMath lat lon bearing distance).1 ≤ 90) ∧
    (lon - 180 < (calculateDestinationPoint realMath lat lon bearing distance).2 ∧
      (calculateDestinationPoint realMath lat lon bearing distance).2 ≤ lon + 180) ∧
    (-360 < (calculateDestinationPoint realMath lat lon bearing distance).2 ∧
      (calculateDestinationPoint realMath lat lon bearing distance).2 ≤ 360) := by
  obtain ⟨x, z, h1, h2⟩ := calculateDestinationPoint_real lat lon bearing distance
  have hpi := Real.pi_pos
  have ha1 := Real.neg_pi_div_two_le_arcsin x
  have ha2 := Real.arcsin_le_pi_div_two x
  obtain ⟨hz1, hz2⟩ := arg_degrees_bounds z
  rw [h1, h2]
  refine ⟨⟨?_, ?_⟩, ⟨by linarith, by linarith⟩, ⟨by linarith [hlon.1], by linarith [hlon.2]⟩⟩
  · rw [le_div_iff₀ hpi]
    nlinarith
  · rw [div_le_iff₀ hpi]
    nlinarith

/-- From the origin `(0, 180)` with bearing `90` (due east) and distance `1000` metres
the destination longitude is greater than `180`. -/
theorem destination_east_of_antimeridian :
    180 < (calculateDestinationPoint realMath 0 180 90 1000).2 := by
  have hpi := Real.pi_pos
  have hδ0 : (0 : ℝ) < 1000 / 6371000 := by norm_num
  have hδπ : (1000 : ℝ) / 6371000 < Real.pi := by
    have := Real.pi_gt_three
    have : (1000 : ℝ) / 6371000 < 3 := by norm_num
    linarith
  have hsin : 0 < Real.sin (1000 / 6371000) := Real.sin_pos_of_pos_of_lt_pi hδ0 hδπ
  have hθ : (90 : ℝ) * Real.pi / 180 = Real.pi / 2 := by ring
  have hval : (calculateDestinationPoint realMath 0 180 90 1000).2 =
      (180 * Real.pi / 180 +
        Complex.arg ⟨Real.cos (1000 / 6371000), Real.sin (1000 / 6371000)⟩) * 180 / Real.pi := by
    simp only [calculateDestinationPoint, toRadians, realMath, hθ, zero_mul, zero_div,
      Real.sin_zero, Real.cos_zero, Real.sin_pi_div_two, Real.cos_pi_div_two, mul_zero,
      add_zero, Real.arcsin_zero, sub_zero, one_mul, mul_one]
  have harg : 0 < Complex.arg ⟨Real.cos (1000 / 6371000), Real.sin (1000 / 6371000)⟩ := by
    have him : (0 : ℝ) ≤
        (⟨Real.cos (1000 / 6371000), Real.sin (1000 / 6371000)⟩ : ℂ).im := le_of_lt hsin
    rcases lt_or_eq_of_le (Complex.arg_nonneg_iff.mpr him) with h | h
    · exact h
    · have h0 := (Complex.arg_eq_zero_iff.mp h.symm).2
      simp only at h0
      linarith
  rw [hval, lt_div_iff₀ hpi]
  nlinarith

/-- C5 is false as stated: a valid origin, a finite bearing and a distance `≥ 0` whose
destination is not a valid GeoPoint. -/
theorem calculateDestinationPoint_not_always_valid :
    ¬ ∀ lat lon bearing distance : ℝ,
      (-90 ≤ lat ∧ lat ≤ 90) → (-180 ≤ lon ∧ lon ≤ 180) → 0 ≤ distance →
        (-90 ≤ (calculateDestinationPoint realMath lat lon bearing distance).1 ∧
          (calculateDestinationPoint realMath lat lon bearing distance).1 ≤ 90) ∧
        (-180 ≤ (calculateDestinationPoint realMath lat lon bearing distance).2 ∧
          (calculateDestinationPoint realMath lat lon bearing distance).2 ≤ 180) := by
  intro h
  have h1 := (h 0 180 90 1000 (by norm_num) (by norm_num) (by norm_num)).2.2
  exact absurd destination_east_of_antimeridian (not_lt.mpr h1)

/-- The bounds of C5 (as amended) at the origin `(0, 180)`, bearing `90`, distance
`1000`. -/
theorem calculateDestinationPoint_bounds_witness :
    ((-90 : ℝ) ≤ 0 ∧ (0 : ℝ) ≤ 90) ∧ ((-180 : ℝ) ≤ 180 ∧ (180 : ℝ) ≤ 180) ∧ (0 : ℝ) ≤ 1000 ∧
    (-90 ≤ (calculateDestinationPoint realMath 0 180 90 1000).1 ∧
      (calculateDestinationPoint realMath 0 180 90 1000).1 ≤ 90) ∧
    (-360 < (calculateDestinationPoint realMath 0 180 90 1000).2 ∧
      (calculateDestinationPoint realMath 0 180 90 1000).2 ≤ 360) :=
  ⟨by norm_num, by norm_num, by norm_num,
    (calculateDestinationPoint_bounds 0 180 90 1000 (by norm_num) (by norm_num) (by norm_num)).1,
    (calculateDestinationPoint_bounds 0 180 90 1000 (by norm_num) (by norm_num)
      (by norm_num)).2.2⟩

end ProjectionTheorems

section StateTheorems

variable {K : Type}

/-- Removing a list of layers one by one keeps exactly the layers whose identity is not
in the list. -/
theorem foldl_removeLayer_eq_filter (ids : List Nat) (layers : List (Layer K)) :
    ids.foldl (fun layers id => removeLayer layers id) layers =
      layers.filter (fun l => l.id ∉ ids) := by
  induction ids generalizing layers with
  | nil => simp
  | cons id rest ih =>
    rw [List.foldl_cons, ih, removeLayer, List.filter_filter]
    congr 1
    funext l
    simp only [List.mem_cons, not_or, Bool.decide_and, ne_eq, Bool.and_comm]

/-- The markers leave the map one by one (script.js 129). -/
theorem foldl_remove_markers (markers : List (Marker K)) (layers : List (Layer K)) :
    markers.foldl (fun layers marker => removeLayer layers marker.id) layers =
      layers.filter (fun l => l.id ∉ markers.map (fun m => m.id)) := by
  rw [← foldl_removeLayer_eq_filter, List.foldl_map]

/-- The selected rays leave the map one by one (script.js 174). -/
theorem foldl_remove_rays (selected : List (Polyline K)) (layers : List (Layer K)) :
    selected.foldl (fun layers ray => removeLayer layers ray.id) layers =
      layers.filter (fun l => l.id ∉ selected.map (fun r => r.id)) := by
  rw [← foldl_removeLayer_eq_filter, List.foldl_map]

/-- C8. `removeSelected` takes out of `rays` exactly the rays that are selected (no
selected ray stays, every other ray stays, the order is kept) and empties the
selection; a second call right after changes nothing at all. -/
theorem removeSelectedRaysClick_spec (s : State K) :
    (∀ r, r ∈ (removeSelectedRaysClick s).rays ↔
      r ∈ s.rays ∧ ∀ sel ∈ s.selectedRays, sel.id ≠ r.id) ∧
    (∀ r ∈ s.selectedRays, r ∉ (removeSelectedRaysClick s).rays) ∧
    (removeSelectedRaysClick s).rays.Sublist s.rays ∧
    (removeSelectedRaysClick s).rays =
      s.rays.filter (fun r => r.id ∉ s.selectedRays.map (fun sel => sel.id)) ∧
    (removeSelectedRaysClick s).selectedRays = [] ∧
    removeSelectedRaysClick (removeSelectedRaysClick s) = removeSelectedRaysClick s := by
  have hmem : ∀ r, r ∈ (removeSelectedRaysClick s).rays ↔
      r ∈ s.rays ∧ ∀ sel ∈ s.selectedRays, sel.id ≠ r.id := by
    intro r
    simp only [removeSelectedRaysClick, List.mem_filter, List.any_eq_true, decide_eq_true_eq,
      not_exists, not_and, ne_eq]
  refine ⟨hmem, ?_, List.filter_sublist _, ?_, rfl, ?_⟩
  · intro r hr hin
    exact ((hmem r).mp hin).2 r hr rfl
  · simp only [removeSelectedRaysClick]
    congr 1
    funext r
    simp only [List.any_eq_true, decide_eq_true_eq, List.mem_map, decide_not]
  · simp only [removeSelectedRaysClick, List.foldl_nil, List.any_nil, Bool.false_eq_true,
      not_false_eq_true, decide_True, List.filter_true]

/-- A click on an active or displayed line keeps `SelectionInv`. -/
theorem lineClick_inv (s : State K) (line : Polyline K)
    (hline : line ∈ s.rays ∨ Layer.polyline line ∈ s.map) (h : SelectionInv s) :
    SelectionInv (lineClick s line) := by
  have hactive : line ∈ s.rays := hline.elim id (h.2 line)
  unfold lineClick
  split
  · refine ⟨?_, h.2⟩
    intro r hr
    simp only [List.mem_append, List.mem_singleton] at hr
    rcases hr with hr | hr
    · exact h.1 r hr
    · rw [hr]
      exact hactive
  · refine ⟨?_, h.2⟩
    intro r hr
    exact h.1 r (List.mem_of_mem_filter hr)

/-- Removing the selected rays keeps `SelectionInv`. -/
theorem removeSelectedRaysClick_inv (s : State K) (h : SelectionInv s) :
    SelectionInv (removeSelectedRaysClick s) := by
  constructor
  · intro r hr
    cases hr
  · intro l hl
    simp only [removeSelectedRaysClick, foldl_remove_rays, List.mem_filter, List.mem_map,
      decide_eq_true_eq, not_exists, not_and, List.any_eq_true] at hl ⊢
    refine ⟨h.2 l hl.1, ?_⟩
    intro sel hsel heq
    exact hl.2 sel hsel heq

/-- Adding markers changes neither the rays nor the selection and adds no polyline to
the map. -/
theorem foldl_addIntersectionMarker_frame (points : List (LatLng K)) (s : State K) :
    (points.foldl addIntersectionMarker s).rays = s.rays ∧
    (points.foldl addIntersectionMarker s).selectedRays = s.selectedRays ∧
    (points.foldl addIntersectionMarker s).ellipseLayer = s.ellipseLayer ∧
    ∀ l, Layer.polyline l ∈ (points.foldl addIntersectionMarker s).map →
      Layer.polyline l ∈ s.map := by
  induction points generalizing s with
  | nil => exact ⟨rfl, rfl, rfl, fun _ h => h⟩
  | cons p rest ih =>
    obtain ⟨h1, h2, h3, h4⟩ := ih (addIntersectionMarker s p)
    refine ⟨h1, h2, h3, ?_⟩
    intro l hl
    have := h4 l hl
    simp only [addIntersectionMarker, List.mem_append, List.mem_singleton] at this
    rcases this with h | h
    · exact h
    · cases h

/-- Adding markers pushes one marker per point, in order. -/
theorem foldl_addIntersectionMarker_markers (points : List (LatLng K)) (s : State K) :
    (points.foldl addIntersectionMarker s).intersectionMarkers.map (fun m => m.latlng) =
      s.intersectionMarkers.map (fun m => m.latlng) ++ points := by
  induction points generalizing s with
  | nil => simp
  | cons p rest ih =>
    rw [List.foldl_cons, ih]
    simp [addIntersectionMarker]

end StateTheorems

section HandlerTheorems

variable {K : Type} [LinearOrderedField K]

/-- C10. With fewer than three rays the handler alerts and returns at once: the state
(rays, selection, markers, ellipse, map) is unchanged, nothing is logged and
`lineIntersection` is not called for any pair. -/
theorem calculateIntersectionClick_insufficient (distance : LatLng K → LatLng K → K)
    (s : State K) (h : s.rays.length < 3) :
    calculateIntersectionClick distance s =
      (s, { alerts := ["Please add at least three rays."], console := [], attempts := [] }) := by
  simp only [calculateIntersectionClick, if_pos h, Output.silent]

/-- C10 on two rays that do cross: the handler still only alerts. -/
theorem calculateIntersectionClick_insufficient_witness :
    twoCrossingRays.rays.length < 3 ∧
    lineIntersection ((⟨0, 0⟩, ⟨2, 2⟩) : Segment ℚ) (⟨0, 2⟩, ⟨2, 0⟩) = some ⟨1, 1⟩ ∧
    calculateIntersectionClick taxicab twoCrossingRays =
      (twoCrossingRays,
        { alerts := ["Please add at least three rays."], console := [], attempts := [] }) :=
  ⟨by decide, by norm_num [lineIntersection],
    calculateIntersectionClick_insufficient taxicab twoCrossingRays (by decide)⟩

/-- On `threeParallelRays` no pair of rays intersects. -/
theorem threeParallelRays_collect :
    collectIntersections threeParallelRays.rays = ([], [(0, 1), (0, 2), (1, 2)]) := by
  norm_num [collectIntersections, threeParallelRays, List.range, List.range.loop, List.range',
    pairStep, lineIntersection]

/-- C6 is false as stated: with three rays and no intersection the handler does not
leave the markers untouched; on `threeParallelRays` the marker collection and the map
differ after the call. -/
theorem calculateIntersectionClick_empty_clears_markers :
    ¬ ∀ (distance : LatLng ℚ → LatLng ℚ → ℚ) (s : State ℚ),
      3 ≤ s.rays.length → (collectIntersections s.rays).1 = [] →
        (calculateIntersectionClick distance s).2.console = ["No intersections found."] ∧
        (calculateIntersectionClick distance s).1.ellipseLayer = s.ellipseLayer ∧
        (calculateIntersectionClick distance s).1.intersectionMarkers = s.intersectionMarkers ∧
        (calculateIntersectionClick distance s).1.map = s.map := by
  intro h
  have h1 := (h taxicab threeParallelRays (by decide)
    (by rw [threeParallelRays_collect])).2.2.1
  have h2 : (calculateIntersectionClick taxicab threeParallelRays).1.intersectionMarkers = [] := by
    simp only [calculateIntersectionClick, threeParallelRays_collect]
    simp [threeParallelRays]
  rw [h2] at h1
  simp [threeParallelRays] at h1

/-- C6 (as amended). With at least three rays and no intersecting pair the handler logs
"No intersections found." and shows no alert; the stored ellipse is left as it was and
stays on the map; the previous intersection markers are removed from the map and the
marker collection becomes empty; rays, selection and colours are unchanged and no new
layer is created. -/
theorem calculateIntersectionClick_empty (distance : LatLng K → LatLng K → K) (s : State K)
    (hn : 3 ≤ s.rays.length) (hempty : (collectIntersections s.rays).1 = []) :
    (calculateIntersectionClick distance s).2.console = ["No intersections found."] ∧
    (calculateIntersectionClick distance s).2.alerts = [] ∧
    (calculateIntersectionClick distance s).1.ellipseLayer = s.ellipseLayer ∧
    (calculateIntersectionClick distance s).1.intersectionMarkers = [] ∧
    (calculateIntersectionClick distance s).1.map =
      s.map.filter (fun l => l.id ∉ s.intersectionMarkers.map (fun m => m.id)) ∧
    (∀ e, s.ellipseLayer = some e → Layer.ellipse e ∈ s.map →
      (∀ m ∈ s.intersectionMarkers, m.id ≠ e.id) →
      Layer.ellipse e ∈ (calculateIntersectionClick distance s).1.map) ∧
    (calculateIntersectionClick distance s).1.rays = s.rays ∧
    (calculateIntersectionClick distance s).1.selectedRays = s.selectedRays ∧
    (calculateIntersectionClick distance s).1.color = s.color ∧
    (calculateIntersectionClick distance s).1.nextId = s.nextId := by
  have hlt : ¬ s.rays.length < 3 := not_lt.mpr hn
  have hres : calculateIntersectionClick distance s =
      ({ s with
          map := s.intersectionMarkers.foldl
            (fun layers marker => removeLayer layers marker.id) s.map
          intersectionMarkers := [] },
        { Output.silent with
          console := ["No intersections found."]
          attempts := (collectIntersections s.rays).2 }) := by
    simp only [calculateIntersectionClick, if_neg hlt, hempty, List.length_nil, if_true]
  rw [hres]
  refine ⟨rfl, rfl, rfl, rfl, foldl_remove_markers _ _, ?_, rfl, rfl, rfl, rfl⟩
  intro e _ hmem hid
  show Layer.ellipse e ∈ s.intersectionMarkers.foldl
    (fun layers marker => removeLayer layers marker.id) s.map
  rw [foldl_remove_markers, List.mem_filter]
  refine ⟨hmem, ?_⟩
  simp only [decide_eq_true_eq, List.mem_map, not_exists, not_and]
  intro m hm heq
  exact hid m hm heq

/-- C6 (as amended) on `threeParallelRays`. -/
theorem calculateIntersectionClick_empty_witness :
    3 ≤ threeParallelRays.rays.length ∧
    (collectIntersections threeParallelRays.rays).1 = [] ∧
    (calculateIntersectionClick taxicab threeParallelRays).2.console
      = ["No intersections found."] ∧
    (calculateIntersectionClick taxicab threeParallelRays).1.ellipseLayer
      = threeParallelRays.ellipseLayer ∧
    (calculateIntersectionClick taxicab threeParallelRays).1.intersectionMarkers = [] :=
  ⟨by decide, by rw [threeParallelRays_collect],
    (calculateIntersectionClick_empty taxicab threeParallelRays (by decide)
      (by rw [threeParallelRays_collect])).1,
    (calculateIntersectionClick_empty taxicab threeParallelRays (by decide)
      (by rw [threeParallelRays_collect])).2.2.1,
    (calculateIntersectionClick_empty taxicab threeParallelRays (by decide)
      (by rw [threeParallelRays_collect])).2.2.2.1⟩

/-- `drawRay` keeps `SelectionInv`. -/
theorem drawRay_inv (M : MathPrims K) (s : State K) (lat lon bearing distance : K)
    (h : SelectionInv s) : SelectionInv (drawRay M s lat lon bearing distance) := by
  constructor
  · intro r hr
    exact List.mem_append_left _ (h.1 r hr)
  · intro l hl
    simp only [drawRay, List.mem_append, List.mem_singleton] at hl ⊢
    rcases hl with hl | hl
    · exact Or.inl (h.2 l hl)
    · exact Or.inr (Layer.polyline.inj hl)

/-- The spreadsheet import keeps `SelectionInv`. -/
theorem processExcel_inv (M : MathPrims K)
    (rows : List (Option K × Option K × Option K × Option K)) (s : State K)
    (h : SelectionInv s) : SelectionInv (processExcel M s rows) := by
  induction rows generalizing s with
  | nil => exact h
  | cons row rest ih =>
    simp only [processExcel, List.foldl_cons]
    apply ih
    obtain ⟨lat, lon, azimuth, dist⟩ := row
    cases lat <;> cases lon <;> cases azimuth <;> cases dist <;>
      first
      | exact h
      | exact drawRay_inv M s _ _ _ _ h

/-- The handler of `calculateIntersection` changes neither the rays nor the selection
and adds no polyline to the map. -/
theorem calculateIntersectionClick_frame (distance : LatLng K → LatLng K → K) (s : State K) :
    (calculateIntersectionClick distance s).1.rays = s.rays ∧
    (calculateIntersectionClick distance s).1.selectedRays = s.selectedRays ∧
    ∀ l, Layer.polyline l ∈ (calculateIntersectionClick distance s).1.map →
      Layer.polyline l ∈ s.map := by
  unfold calculateIntersectionClick
  split
  · exact ⟨rfl, rfl, fun _ h => h⟩
  · have hmarkers : ∀ l, Layer.polyline l ∈ s.intersectionMarkers.foldl
        (fun layers marker => removeLayer layers marker.id) s.map → Layer.polyline l ∈ s.map := by
      intro l hl
      rw [foldl_remove_markers] at hl
      exact List.mem_of_mem_filter hl
    simp only []
    split
    · exact ⟨rfl, rfl, hmarkers⟩
    · obtain ⟨h1, h2, _, h4⟩ := foldl_addIntersectionMarker_frame
        (collectIntersections s.rays).1
        { s with
          map := s.intersectionMarkers.foldl
            (fun layers marker => removeLayer layers marker.id) s.map
          intersectionMarkers := [] }
      refine ⟨h1, h2, ?_⟩
      intro l hl
      apply hmarkers
      apply h4
      simp only [drawEllipse, List.mem_append, List.mem_singleton] at hl
      rcases hl with hl | hl
      · revert hl
        split
        · intro hl
          exact List.mem_of_mem_filter hl
        · exact id
      · cases hl

/-- C7. In every state reachable from the initial state by adding rays, toggling the
selection of an active (or displayed) ray, removing the selected rays and computing the
intersections, every element of `selectedRays` is an element of `rays`. -/
theorem selectedRays_subset_rays (M : MathPrims K) (distance : LatLng K → LatLng K → K)
    (s : State K) (h : Reachable M distance s) :
    ∀ r ∈ s.selectedRays, r ∈ s.rays := by
  have hinv : SelectionInv s := by
    induction h with
    | init =>
      refine ⟨?_, ?_⟩
      · intro r hr
        cases hr
      · intro l hl
        cases hl
    | addRay s lat lon azimuth dist _ ih =>
      cases lat <;> cases lon <;> cases azimuth <;> cases dist <;>
        first
        | exact ih
        | exact drawRay_inv M s _ _ _ _ ih
    | importRays s rows _ ih => exact processExcel_inv M rows s ih
    | toggleSelection s line _ hline ih => exact lineClick_inv s line hline ih
    | removeSelected s _ ih => exact removeSelectedRaysClick_inv s ih
    | computeIntersections s _ ih =>
      obtain ⟨h1, h2, h3⟩ := calculateIntersectionClick_frame distance s
      refine ⟨?_, ?_⟩
      · intro r hr
        rw [h1]
        rw [h2] at hr
        exact ih.1 r hr
      · intro l hl
        rw [h1]
        exact ih.2 l (h3 l hl)
  exact hinv.1

/-- C7 on the state reached by adding one ray at `(0, 0)` and clicking it: the clicked
ray is selected and is an active ray. -/
theorem selectedRays_subset_rays_witness :
    Reachable realMath taxicab
      (lineClick (addRayClick realMath initialState (some 0) (some 0) (some 90) (some 1000)).1
        ⟨0, (⟨0, 0⟩, ⟨(calculateDestinationPoint realMath 0 0 90 1000).1,
          (calculateDestinationPoint realMath 0 0 90 1000).2⟩)⟩) ∧
    ∀ r ∈ (lineClick
        (addRayClick realMath initialState (some 0) (some 0) (some 90) (some 1000)).1
        ⟨0, (⟨0, 0⟩, ⟨(calculateDestinationPoint realMath 0 0 90 1000).1,
          (calculateDestinationPoint realMath 0 0 90 1000).2⟩)⟩).selectedRays,
      r ∈ (lineClick
        (addRayClick realMath initialState (some 0) (some 0) (some 90) (some 1000)).1
        ⟨0, (⟨0, 0⟩, ⟨(calculateDestinationPoint realMath 0 0 90 1000).1,
          (calculateDestinationPoint realMath 0 0 90 1000).2⟩)⟩).rays :=
  have hreach : Reachable realMath taxicab
      (lineClick (addRayClick realMath initialState (some 0) (some 0) (some 90) (some 1000)).1
        ⟨0, (⟨0, 0⟩, ⟨(calculateDestinationPoint realMath 0 0 90 1000).1,
          (calculateDestinationPoint realMath 0 0 90 1000).2⟩)⟩) :=
    Reachable.toggleSelection _ _ (Reachable.addRay _ _ _ _ _ Reachable.init)
      (Or.inl (by simp [addRayClick, drawRay, initialState]))
  ⟨hreach, selectedRays_subset_rays realMath taxicab _ hreach⟩

/-- The inner loop calls `lineIntersection` once for every `j` of its range and pushes
the non-null results. -/
theorem foldl_pairStep (rays : List (Polyline K)) (i : Nat) (hi : i < rays.length)
    (js : List Nat) (hjs : ∀ j ∈ js, j < rays.length)
    (acc : List (LatLng K) × List (Nat × Nat)) :
    js.foldl (pairStep rays i) acc =
      (acc.1 ++ (js.map (fun j => (i, j))).filterMap (pairResult rays),
        acc.2 ++ js.map (fun j => (i, j))) := by
  induction js generalizing acc with
  | nil => simp
  | cons j rest ih =>
    have hj : j < rays.length := hjs j (List.mem_cons_self _ _)
    rw [List.foldl_cons, ih (fun k hk => hjs k (List.mem_cons_of_mem _ hk))]
    simp only [pairStep, pairResult, List.getElem?_eq_getElem hi, List.getElem?_eq_getElem hj,
      List.map_cons, List.filterMap_cons]
    cases lineIntersection (rays[i]).latlngs (rays[j]).latlngs <;> simp

/-- The outer loop calls `lineIntersection` once for every pair of `pairsFrom` and
pushes the non-null results. -/
theorem foldl_outer (rays : List (Polyline K)) (is : List Nat)
    (his : ∀ i ∈ is, i < rays.length) (acc : List (LatLng K) × List (Nat × Nat)) :
    is.foldl
      (fun acc i =>
        (List.range' (i + 1) (rays.length - (i + 1))).foldl (pairStep rays i) acc) acc =
      (acc.1 ++ (pairsFrom rays.length is).filterMap (pairResult rays),
        acc.2 ++ pairsFrom rays.length is) := by
  induction is generalizing acc with
  | nil => simp [pairsFrom]
  | cons i rest ih =>
    have hi : i < rays.length := his i (List.mem_cons_self _ _)
    have hjs : ∀ j ∈ List.range' (i + 1) (rays.length - (i + 1)), j < rays.length := by
      intro j hj
      rw [List.mem_range'_1] at hj
      omega
    rw [List.foldl_cons, ih (fun k hk => his k (List.mem_cons_of_mem _ hk)),
      foldl_pairStep rays i hi _ hjs]
    simp only [pairsFrom, List.flatMap_cons, List.filterMap_append, List.append_assoc]

/-- The loops of `collectIntersections`, in closed form. -/
theorem collectIntersections_eq (rays : List (Polyline K)) :
    collectIntersections rays =
      ((pairsFrom rays.length (List.range rays.length)).filterMap (pairResult rays),
        pairsFrom rays.length (List.range rays.length)) := by
  unfold collectIntersections
  rw [foldl_outer rays _ (fun i hi => List.mem_range.mp hi)]
  simp

/-- The pairs of `pairsFrom n (range n)` are the pairs `i < j < n`. -/
theorem mem_pairsFrom_range (n i j : Nat) :
    (i, j) ∈ pairsFrom n (List.range n) ↔ i < j ∧ j < n := by
  simp only [pairsFrom, List.mem_flatMap, List.mem_range, List.mem_map, List.mem_range'_1,
    Prod.mk.injEq]
  constructor
  · rintro ⟨a, _, b, ⟨hb1, hb2⟩, rfl, rfl⟩
    omega
  · rintro ⟨h1, h2⟩
    exact ⟨i, by omega, j, ⟨by omega, by omega⟩, rfl, rfl⟩

/-- No pair occurs twice in `pairsFrom n (range n)`. -/
theorem nodup_pairsFrom_range (n : Nat) : (pairsFrom n (List.range n)).Nodup := by
  unfold pairsFrom
  rw [List.nodup_flatMap]
  constructor
  · intro i _
    refine List.Nodup.map ?_ (List.nodup_range' _ _)
    intro a b hab
    exact (Prod.mk.inj hab).2
  · refine List.Pairwise.imp ?_ (List.nodup_range n)
    intro a b hab
    simp only [Function.onFun]
    intro x hxa hxb
    simp only [List.mem_map] at hxa hxb
    obtain ⟨_, _, rfl⟩ := hxa
    obtain ⟨_, _, hx⟩ := hxb
    exact hab (Prod.mk.inj hx).1.symm

/-- Gauss' sum for the lengths of the inner loops. -/
theorem length_pairsFrom_range' (n s k : Nat) (h : s + k = n) :
    (pairsFrom n (List.range' s k)).length * 2 = k * (k - 1) := by
  induction k generalizing s with
  | zero => simp [pairsFrom]
  | succ k ih =>
    have hrec := ih (s + 1) (by omega)
    simp only [pairsFrom, List.range'_succ, List.flatMap_cons, List.length_append,
      List.length_map, List.length_range'] at hrec ⊢
    have hk : n - (s + 1) = k := by omega
    rw [hk, Nat.add_mul, hrec]
    cases k with
    | zero => rfl
    | succ m =>
      simp only [Nat.add_sub_cancel]
      ring

/-- For `n` rays the loops make `n (n - 1) / 2` calls. -/
theorem length_pairsFrom_range (n : Nat) :
    (pairsFrom n (List.range n)).length = n * (n - 1) / 2 := by
  have h := length_pairsFrom_range' n 0 n (by omega)
  rw [← List.range_eq_range'] at h
  generalize n * (n - 1) = m at h
  omega

/-- C9. With `n ≥ 3` rays the handler calls `lineIntersection` exactly once for every
index pair `i < j < n` and for nothing else, that is `n (n - 1) / 2` times; the
collected array is the list of the non-null results of these calls, in call order and
with repetitions kept; when it is not empty, one marker per collected point is stored
and the centre of the stored ellipse is the arithmetic mean of the collected points. -/
theorem calculateIntersectionClick_pairs (distance : LatLng K → LatLng K → K) (s : State K)
    (hn : 3 ≤ s.rays.length) :
    (calculateIntersectionClick distance s).2.attempts = (collectIntersections s.rays).2 ∧
    (calculateIntersectionClick distance s).2.attempts.Nodup ∧
    (∀ i j, (i, j) ∈ (calculateIntersectionClick distance s).2.attempts ↔
      i < j ∧ j < s.rays.length) ∧
    (calculateIntersectionClick distance s).2.attempts.length =
      s.rays.length * (s.rays.length - 1) / 2 ∧
    (collectIntersections s.rays).1 =
      (calculateIntersectionClick distance s).2.attempts.filterMap (pairResult s.rays) ∧
    ((collectIntersections s.rays).1 ≠ [] →
      (calculateIntersectionClick distance s).1.intersectionMarkers.map (fun m => m.latlng) =
        (collectIntersections s.rays).1 ∧
      ∃ e, (calculateIntersectionClick distance s).1.ellipseLayer = some e ∧
        e.latlng.lat = ((collectIntersections s.rays).1.map (fun p => p.lat)).sum /
          ((collectIntersections s.rays).1.length : K) ∧
        e.latlng.lng = ((collectIntersections s.rays).1.map (fun p => p.lng)).sum /
          ((collectIntersections s.rays).1.length : K)) := by
  have hlt : ¬ s.rays.length < 3 := not_lt.mpr hn
  have hatt : (calculateIntersectionClick distance s).2.attempts =
      (collectIntersections s.rays).2 := by
    simp only [calculateIntersectionClick, if_neg hlt]
    split <;> rfl
  have hpairs : (collectIntersections s.rays).2 =
      pairsFrom s.rays.length (List.range s.rays.length) := by
    rw [collectIntersections_eq]
  refine ⟨hatt, ?_, ?_, ?_, ?_, ?_⟩
  · rw [hatt, hpairs]
    exact nodup_pairsFrom_range _
  · intro i j
    rw [hatt, hpairs]
    exact mem_pairsFrom_range _ i j
  · rw [hatt, hpairs]
    exact length_pairsFrom_range _
  · rw [hatt, hpairs, collectIntersections_eq]
  · intro hne
    have hlen : ¬ (collectIntersections s.rays).1.length = 0 := by
      intro h0
      exact hne (List.length_eq_zero.mp h0)
    have hres : (calculateIntersectionClick distance s).1 =
        drawEllipse distance
          ((collectIntersections s.rays).1.foldl addIntersectionMarker
            { s with
              map := s.intersectionMarkers.foldl
                (fun layers marker => removeLayer layers marker.id) s.map
              intersectionMarkers := [] })
          (collectIntersections s.rays).1 := by
      simp only [calculateIntersectionClick, if_neg hlt, if_neg hlen]
    rw [hres]
    refine ⟨?_, _, rfl, ?_, ?_⟩
    · show ((collectIntersections s.rays).1.foldl addIntersectionMarker _).intersectionMarkers.map
        (fun m => m.latlng) = _
      rw [foldl_addIntersectionMarker_markers]
      simp
    · simp only [foldl_add_eq_sum, zero_add]
    · simp only [foldl_add_eq_sum, zero_add]

/-- On `fourRays` the six pairs are tried and four of them intersect. -/
theorem fourRays_collect :
    collectIntersections fourRays.rays =
      ([⟨1, 1⟩, ⟨1, 2⟩, ⟨2, 1⟩, ⟨2, 2⟩], [(0, 1), (0, 2), (0, 3), (1, 2), (1, 3), (2, 3)]) := by
  norm_num [collectIntersections, fourRays, List.range, List.range.loop, List.range', pairStep,
    lineIntersection]

/-- C9 on `fourRays`: six calls, four collected points, and an ellipse centred at their
mean `(3/2, 3/2)`. -/
theorem calculateIntersectionClick_pairs_witness :
    3 ≤ fourRays.rays.length ∧
    (calculateIntersectionClick taxicab fourRays).2.attempts.length = 6 ∧
    (calculateIntersectionClick taxicab fourRays).1.intersectionMarkers.map (fun m => m.latlng) =
      [⟨1, 1⟩, ⟨1, 2⟩, ⟨2, 1⟩, ⟨2, 2⟩] ∧
    ∃ e, (calculateIntersectionClick taxicab fourRays).1.ellipseLayer = some e ∧
      e.latlng.lat = 3 / 2 ∧ e.latlng.lng = 3 / 2 := by
  obtain ⟨_, _, _, hlen, _, hfit⟩ :=
    calculateIntersectionClick_pairs taxicab fourRays (by decide)
  rw [fourRays_collect] at hfit
  obtain ⟨hmarkers, e, he, hlat, hlng⟩ := hfit (by simp)
  refine ⟨by decide, hlen, hmarkers, e, he, ?_, ?_⟩
  · rw [hlat]
    norm_num
  · rw [hlng]
    norm_num

end HandlerTheorems

end ARFM
